import Mathlib

/-!
Shallow embedding of the `battery` package of tinyspacewalk.

Modelling conventions:
* `time.Duration` (an integer count of nanoseconds in Go) and `time.Time`
  are both modelled as `ℚ`; `time.Minute` is the constant `nsPerMinute`.
* The float32 `batteryLevel` and the float64 intermediate arithmetic are
  modelled with exact rationals.
* Every call of `time.Now()` inside one operation is modelled by one
  explicit `now : ℚ` parameter of that operation: within a single locked
  operation the clock readings are treated as equal.
* The ticker goroutine is not modelled; `updateStateMachine` is exposed
  directly, with `now` as input, and sequences of polls and setter calls
  are modelled as lists of operations with explicit times.
* `close` of the `stopTicker` channel faults when the channel is already
  closed (a Go panic), so `Stop` is modelled as an `Option`-returning
  function that is `none` exactly when a double close would occur.
-/

namespace TinySpaceWalk

/-- Nanoseconds per minute: the value of Go `time.Minute` as a count of
nanoseconds. -/
def nsPerMinute : ℚ := 60 * 1000000000

/-- Nanoseconds per second: the value of Go `time.Second`. -/
def nsPerSecond : ℚ := 1000000000

/-- Go `Duration.Minutes()`: the duration expressed in (fractional)
minutes. -/
def durationMinutes (d : ℚ) : ℚ := d / nsPerMinute

/-- SystemState represents the five possible battery system states. -/
inductive SystemState where
  | Charged
  | Disconnecting
  | Draining
  | Dead
  | Charging
deriving DecidableEq, Repr

open SystemState

/-- Config holds configuration parameters for battery creation. -/
structure Config where
  DrainRate : ℚ
  ChargeRate : ℚ
  DisconnectingDuration : ℚ
deriving DecidableEq, Repr

/-- Battery represents a battery with state machine based on three inputs
and time.  The `mu` mutex and the `ticker` value are not modelled; the
`stopTicker` channel is modelled by the flag `stopTickerClosed`. -/
structure Battery where
  state : SystemState
  batteryLevel : ℚ
  chargedOverride : Bool
  isDraining : Bool
  drainRate : ℚ
  chargeRate : ℚ
  disconnectingDuration : ℚ
  lastUpdateAt : ℚ
  disconnectingStartTime : ℚ
  stopTickerClosed : Bool
  running : Bool
deriving DecidableEq, Repr

/-- BatteryInfo holds all current battery system properties.
`DisconnectingDurationRemaining` is only valid when in the Disconnecting
state; otherwise it keeps the Go zero value 0. -/
structure BatteryInfo where
  State : SystemState
  BatteryLevel : ℚ
  ChargedOverride : Bool
  IsDraining : Bool
  DrainRate : ℚ
  ChargeRate : ℚ
  DisconnectingDuration : ℚ
  LastUpdateAt : ℚ
  DisconnectingDurationRemaining : ℚ
deriving DecidableEq, Repr

/-- NewBattery creates a new battery instance with the specified
configuration (`battery.go`, `NewBattery`).  `now` models the
`time.Now()` call initialising `lastUpdateAt`; `startTicker` sets
`running` to true.  The Go zero value of `disconnectingStartTime` is
modelled as 0. -/
def NewBattery (config : Config) (now : ℚ) : Battery :=
  let drainRate := if config.DrainRate ≤ 0 then nsPerMinute else config.DrainRate
  let chargeRate := if config.ChargeRate ≤ 0 then nsPerMinute else config.ChargeRate
  let disconnectingDuration :=
    if config.DisconnectingDuration < 0 then 0 else config.DisconnectingDuration
  { state := Charged
    batteryLevel := 100
    chargedOverride := false
    isDraining := false
    drainRate := drainRate
    chargeRate := chargeRate
    disconnectingDuration := disconnectingDuration
    lastUpdateAt := now
    disconnectingStartTime := 0
    stopTickerClosed := false
    running := true }

/-- setState sets the internal state and updates timing (`battery.go`,
`setState`): `lastUpdateAt` and, on entry to Disconnecting,
`disconnectingStartTime` are refreshed only when the state actually
changes. -/
def setState (b : Battery) (newState : SystemState) (now : ℚ) : Battery :=
  if b.state ≠ newState then
    let b := { b with state := newState, lastUpdateAt := now }
    if newState = Disconnecting then { b with disconnectingStartTime := now } else b
  else b

/-- SetChargedOverride sets the charged override input (`battery.go`,
`SetChargedOverride`).  When true, battery level is set to 100 and state
transitions to Charged. -/
def SetChargedOverride (b : Battery) (override : Bool) (now : ℚ) : Battery :=
  let b := { b with chargedOverride := override }
  if override then setState { b with batteryLevel := 100 } Charged now else b

/-- SetIsDraining sets the draining input (`battery.go`,
`SetIsDraining`). -/
def SetIsDraining (b : Battery) (draining : Bool) : Battery :=
  { b with isDraining := draining }

/-- Stop stops the battery ticker and operations (`battery.go`, `Stop`).
The result is `none` when the model would have to close an
already-closed channel (a Go panic); otherwise `some` of the updated
battery. -/
def Stop (b : Battery) : Option Battery :=
  if b.running then
    if b.stopTickerClosed then none
    else some { b with stopTickerClosed := true, running := false }
  else some b

/-- updateStateMachine implements the state machine logic (`battery.go`,
`updateStateMachine`), with `now` standing for `time.Now()`.  The final
`lastUpdateAt = now` write is skipped by the early return of the
charged-override branch, exactly as in the source. -/
def updateStateMachine (b : Battery) (now : ℚ) : Battery :=
  let deltaMinutes := durationMinutes (now - b.lastUpdateAt)
  if b.chargedOverride then
    setState { b with batteryLevel := 100 } Charged now
  else
    let b1 :=
      match b.state with
      | Charged =>
          if b.isDraining then setState b Disconnecting now else b
      | Disconnecting =>
          let disconnectingElapsed := now - b.disconnectingStartTime
          if disconnectingElapsed ≥ b.disconnectingDuration then
            setState b Draining now
          else b
      | Draining =>
          let drainPercentPerMinute := 100 / durationMinutes b.drainRate
          let drainAmount := drainPercentPerMinute * deltaMinutes
          let newLevel := b.batteryLevel - drainAmount
          if newLevel ≤ 0 then
            setState { b with batteryLevel := 0 } Dead now
          else
            let b := { b with batteryLevel := newLevel }
            if ¬ b.isDraining then setState b Charging now else b
      | Dead =>
          if ¬ b.isDraining then setState b Charging now else b
      | Charging =>
          let chargePercentPerMinute := 100 / durationMinutes b.chargeRate
          let chargeAmount := chargePercentPerMinute * deltaMinutes
          let newLevel := b.batteryLevel + chargeAmount
          if newLevel ≥ 100 then
            setState { b with batteryLevel := 100 } Charged now
          else
            let b := { b with batteryLevel := newLevel }
            if b.isDraining then setState b Disconnecting now else b
    { b1 with lastUpdateAt := now }

/-- GetInfo returns a summary of the current battery state (`battery.go`,
`GetInfo`); `now` models the `time.Now()` inside `time.Since`. -/
def GetInfo (b : Battery) (now : ℚ) : BatteryInfo :=
  let info : BatteryInfo :=
    { State := b.state
      BatteryLevel := b.batteryLevel
      ChargedOverride := b.chargedOverride
      IsDraining := b.isDraining
      DrainRate := b.drainRate
      ChargeRate := b.chargeRate
      DisconnectingDuration := b.disconnectingDuration
      LastUpdateAt := b.lastUpdateAt
      DisconnectingDurationRemaining := 0 }
  if b.state = Disconnecting then
    let elapsed := now - b.disconnectingStartTime
    let remaining := b.disconnectingDuration - elapsed
    let remaining := max remaining 0
    { info with DisconnectingDurationRemaining := remaining }
  else info

/-- One externally visible mutation of a battery: a poll of the state
machine at an instant, or one of the two setter calls.
`setChargedOverride` carries the instant of its internal `time.Now()`
call. -/
inductive Op where
  | poll (now : ℚ)
  | setChargedOverride (flag : Bool) (now : ℚ)
  | setIsDraining (flag : Bool)
deriving DecidableEq, Repr

/-- Apply a single operation to a battery. -/
def applyOp (b : Battery) : Op → Battery
  | .poll now => updateStateMachine b now
  | .setChargedOverride flag now => SetChargedOverride b flag now
  | .setIsDraining flag => SetIsDraining b flag

/-- Run a sequence of operations from left to right. -/
def run (b : Battery) : List Op → Battery
  | [] => b
  | op :: rest => run (applyOp b op) rest

/-- The times carried by a list of operations are nondecreasing and all
at least `t` (non-negative elapsed time between timed operations). -/
def opsValid : ℚ → List Op → Bool
  | _, [] => true
  | t, .poll now :: rest => decide (t ≤ now) && opsValid now rest
  | t, .setChargedOverride _ now :: rest => decide (t ≤ now) && opsValid now rest
  | t, .setIsDraining _ :: rest => opsValid t rest

/-- Run a sequence of polls at the given absolute instants. -/
def pollTimes (b : Battery) : List ℚ → Battery
  | [] => b
  | t :: ts => pollTimes (updateStateMachine b t) ts

/-- The instants of a poll schedule are nondecreasing, starting from
`t`. -/
def timesValid : ℚ → List ℚ → Bool
  | _, [] => true
  | t, now :: rest => decide (t ≤ now) && timesValid now rest

/-- The last instant of a poll schedule, or `t` for the empty
schedule. -/
def endTime : ℚ → List ℚ → ℚ
  | t, [] => t
  | _, now :: rest => endTime now rest

/-! ## Basic lemmas about `setState` -/

theorem setState_batteryLevel (b : Battery) (s : SystemState) (now : ℚ) :
    (setState b s now).batteryLevel = b.batteryLevel := by
  unfold setState
  split
  · split <;> rfl
  · rfl

theorem setState_state (b : Battery) (s : SystemState) (now : ℚ) :
    (setState b s now).state = s ∨ (setState b s now).state = b.state := by
  unfold setState
  split
  · split <;> exact Or.inl rfl
  · exact Or.inr rfl

theorem setState_state_eq (b : Battery) (s : SystemState) (now : ℚ) :
    (setState b s now).state = s := by
  unfold setState
  split
  · split <;> rfl
  · next h => exact not_ne_iff.mp h

theorem setState_drainRate (b : Battery) (s : SystemState) (now : ℚ) :
    (setState b s now).drainRate = b.drainRate := by
  unfold setState
  split
  · split <;> rfl
  · rfl

theorem setState_chargeRate (b : Battery) (s : SystemState) (now : ℚ) :
    (setState b s now).chargeRate = b.chargeRate := by
  unfold setState
  split
  · split <;> rfl
  · rfl

theorem setState_chargedOverride (b : Battery) (s : SystemState) (now : ℚ) :
    (setState b s now).chargedOverride = b.chargedOverride := by
  unfold setState
  split
  · split <;> rfl
  · rfl

theorem setState_isDraining (b : Battery) (s : SystemState) (now : ℚ) :
    (setState b s now).isDraining = b.isDraining := by
  unfold setState
  split
  · split <;> rfl
  · rfl

/-- The drain amount of one poll at instant `now` (`battery.go`,
`updateStateMachine`, Draining branch): `drainPercentPerMinute *
deltaMinutes`. -/
def drainAmount (b : Battery) (now : ℚ) : ℚ :=
  100 / durationMinutes b.drainRate * durationMinutes (now - b.lastUpdateAt)

/-- The charge amount of one poll at instant `now` (`battery.go`,
`updateStateMachine`, Charging branch): `chargePercentPerMinute *
deltaMinutes`. -/
def chargeAmount (b : Battery) (now : ℚ) : ℚ :=
  100 / durationMinutes b.chargeRate * durationMinutes (now - b.lastUpdateAt)

/-! ## Branch normal forms for `updateStateMachine` -/

theorem update_eq_of_override (b : Battery) (now : ℚ)
    (h : b.chargedOverride = true) :
    updateStateMachine b now =
      if b.state = Charged then { b with batteryLevel := 100 }
      else { b with batteryLevel := 100, state := Charged,
                    lastUpdateAt := now } := by
  unfold updateStateMachine setState
  rw [h]
  by_cases hs : b.state = Charged <;> simp [hs]

theorem update_eq_of_charged (b : Battery) (now : ℚ)
    (ho : b.chargedOverride = false) (hs : b.state = Charged) :
    updateStateMachine b now =
      if b.isDraining then
        { b with state := Disconnecting, lastUpdateAt := now,
                 disconnectingStartTime := now }
      else { b with lastUpdateAt := now } := by
  unfold updateStateMachine setState
  rw [ho, hs]
  by_cases hd : b.isDraining <;> simp [hd, hs, ho]

theorem update_eq_of_disconnecting (b : Battery) (now : ℚ)
    (ho : b.chargedOverride = false) (hs : b.state = Disconnecting) :
    updateStateMachine b now =
      if now - b.disconnectingStartTime ≥ b.disconnectingDuration then
        { b with state := Draining, lastUpdateAt := now }
      else { b with lastUpdateAt := now } := by
  unfold updateStateMachine setState
  rw [ho, hs]
  by_cases he : now - b.disconnectingStartTime ≥ b.disconnectingDuration <;>
    simp [he, hs, ho]

theorem update_eq_of_draining (b : Battery) (now : ℚ)
    (ho : b.chargedOverride = false) (hs : b.state = Draining) :
    updateStateMachine b now =
      if b.batteryLevel - drainAmount b now ≤ 0 then
        { b with batteryLevel := 0, state := Dead, lastUpdateAt := now }
      else if b.isDraining then
        { b with batteryLevel := b.batteryLevel - drainAmount b now,
                 lastUpdateAt := now }
      else
        { b with batteryLevel := b.batteryLevel - drainAmount b now,
                 state := Charging, lastUpdateAt := now } := by
  unfold updateStateMachine setState drainAmount
  rw [ho, hs]
  by_cases hl : b.batteryLevel -
      100 / durationMinutes b.drainRate *
        durationMinutes (now - b.lastUpdateAt) ≤ 0
  · simp [hl, hs, ho]
  · by_cases hd : b.isDraining <;> simp [hl, hd, hs, ho]

theorem update_eq_of_dead (b : Battery) (now : ℚ)
    (ho : b.chargedOverride = false) (hs : b.state = Dead) :
    updateStateMachine b now =
      if b.isDraining then { b with lastUpdateAt := now }
      else { b with state := Charging, lastUpdateAt := now } := by
  unfold updateStateMachine setState
  rw [ho, hs]
  by_cases hd : b.isDraining <;> simp [hd, hs, ho]

theorem update_eq_of_charging (b : Battery) (now : ℚ)
    (ho : b.chargedOverride = false) (hs : b.state = Charging) :
    updateStateMachine b now =
      if b.batteryLevel + chargeAmount b now ≥ 100 then
        { b with batteryLevel := 100, state := Charged, lastUpdateAt := now }
      else if b.isDraining then
        { b with batteryLevel := b.batteryLevel + chargeAmount b now,
                 state := Disconnecting, lastUpdateAt := now,
                 disconnectingStartTime := now }
      else
        { b with batteryLevel := b.batteryLevel + chargeAmount b now,
                 lastUpdateAt := now } := by
  unfold updateStateMachine setState chargeAmount
  rw [ho, hs]
  by_cases hl : b.batteryLevel +
      100 / durationMinutes b.chargeRate *
        durationMinutes (now - b.lastUpdateAt) ≥ 100
  · simp [hl, hs, ho]
  · by_cases hd : b.isDraining <;> simp [hl, hd, hs, ho]

/-! ## The level invariant -/

/-- The battery invariant: strictly positive rates and a charge level
inside the closed interval from 0 to 100. -/
def Inv (b : Battery) : Prop :=
  0 < b.drainRate ∧ 0 < b.chargeRate ∧
  0 ≤ b.batteryLevel ∧ b.batteryLevel ≤ 100

theorem nsPerMinute_pos : (0 : ℚ) < nsPerMinute := by norm_num [nsPerMinute]

theorem drainAmount_nonneg (b : Battery) (now : ℚ)
    (hdr : 0 < b.drainRate) (ht : b.lastUpdateAt ≤ now) :
    0 ≤ drainAmount b now := by
  have h1 : 0 < durationMinutes b.drainRate :=
    div_pos hdr nsPerMinute_pos
  have h2 : 0 ≤ durationMinutes (now - b.lastUpdateAt) :=
    div_nonneg (by linarith) nsPerMinute_pos.le
  exact mul_nonneg (div_nonneg (by norm_num) h1.le) h2

theorem chargeAmount_nonneg (b : Battery) (now : ℚ)
    (hcr : 0 < b.chargeRate) (ht : b.lastUpdateAt ≤ now) :
    0 ≤ chargeAmount b now := by
  have h1 : 0 < durationMinutes b.chargeRate :=
    div_pos hcr nsPerMinute_pos
  have h2 : 0 ≤ durationMinutes (now - b.lastUpdateAt) :=
    div_nonneg (by linarith) nsPerMinute_pos.le
  exact mul_nonneg (div_nonneg (by norm_num) h1.le) h2

theorem update_inv (b : Battery) (now : ℚ)
    (hI : Inv b) (ht : b.lastUpdateAt ≤ now) :
    Inv (updateStateMachine b now) ∧
    (updateStateMachine b now).lastUpdateAt ≤ now := by
  obtain ⟨hdr, hcr, h0, h100⟩ := hI
  by_cases ho : b.chargedOverride = true
  · rw [update_eq_of_override b now ho]
    split
    · exact ⟨⟨hdr, hcr, by norm_num, by norm_num⟩, ht⟩
    · exact ⟨⟨hdr, hcr, by norm_num, by norm_num⟩, le_refl now⟩
  · rw [Bool.not_eq_true] at ho
    cases hst : b.state
    · rw [update_eq_of_charged b now ho hst]
      split <;> exact ⟨⟨hdr, hcr, h0, h100⟩, le_refl now⟩
    · rw [update_eq_of_disconnecting b now ho hst]
      split <;> exact ⟨⟨hdr, hcr, h0, h100⟩, le_refl now⟩
    · rw [update_eq_of_draining b now ho hst]
      have hda := drainAmount_nonneg b now hdr ht
      split
      · exact ⟨⟨hdr, hcr, by norm_num, by norm_num⟩, le_refl now⟩
      · next hl =>
        push_neg at hl
        split <;>
          exact ⟨⟨hdr, hcr, by dsimp only; linarith,
            by dsimp only; linarith⟩, le_refl now⟩
    · rw [update_eq_of_dead b now ho hst]
      split <;> exact ⟨⟨hdr, hcr, h0, h100⟩, le_refl now⟩
    · rw [update_eq_of_charging b now ho hst]
      have hca := chargeAmount_nonneg b now hcr ht
      split
      · exact ⟨⟨hdr, hcr, by norm_num, by norm_num⟩, le_refl now⟩
      · next hl =>
        push_neg at hl
        split <;>
          exact ⟨⟨hdr, hcr, by dsimp only; linarith,
            by dsimp only; linarith⟩, le_refl now⟩

theorem setChargedOverride_inv (b : Battery) (flag : Bool) (now : ℚ)
    (hI : Inv b) (ht : b.lastUpdateAt ≤ now) :
    Inv (SetChargedOverride b flag now) ∧
    (SetChargedOverride b flag now).lastUpdateAt ≤ now := by
  obtain ⟨hdr, hcr, h0, h100⟩ := hI
  cases flag
  · exact ⟨⟨hdr, hcr, h0, h100⟩, ht⟩
  · unfold SetChargedOverride setState
    simp only [if_true]
    split
    · split <;> exact ⟨⟨hdr, hcr, by norm_num, by norm_num⟩, le_refl now⟩
    · exact ⟨⟨hdr, hcr, by norm_num, by norm_num⟩, ht⟩

theorem run_inv (ops : List Op) :
    ∀ (b : Battery) (t : ℚ), Inv b → b.lastUpdateAt ≤ t →
      opsValid t ops = true → Inv (run b ops) := by
  induction ops with
  | nil => intro b t hI _ _; exact hI
  | cons op rest ih =>
    intro b t hI ht hv
    cases op with
    | poll now =>
      simp only [opsValid, Bool.and_eq_true, decide_eq_true_eq] at hv
      obtain ⟨htn, hv'⟩ := hv
      have h := update_inv b now hI (le_trans ht htn)
      exact ih _ now h.1 h.2 hv'
    | setChargedOverride flag now =>
      simp only [opsValid, Bool.and_eq_true, decide_eq_true_eq] at hv
      obtain ⟨htn, hv'⟩ := hv
      have h := setChargedOverride_inv b flag now hI (le_trans ht htn)
      exact ih _ now h.1 h.2 hv'
    | setIsDraining flag =>
      simp only [opsValid] at hv
      exact ih _ t ⟨hI.1, hI.2.1, hI.2.2.1, hI.2.2.2⟩ ht hv

/-! ## Characterisation of drain and charge runs -/

/-- The result of draining from `b` for one single poll at instant `T`
(`battery.go` Draining branch written as one record): used to state that
a whole schedule of polls is equivalent to one big poll. -/
def drainResult (b : Battery) (T : ℚ) : Battery :=
  if b.batteryLevel - drainAmount b T ≤ 0 then
    { b with batteryLevel := 0, state := Dead, lastUpdateAt := T }
  else
    { b with batteryLevel := b.batteryLevel - drainAmount b T,
             lastUpdateAt := T }

/-- The result of charging from `b` for one single poll at instant `T`
(`battery.go` Charging branch with `isDraining` false written as one
record). -/
def chargeResult (b : Battery) (T : ℚ) : Battery :=
  if b.batteryLevel + chargeAmount b T ≥ 100 then
    { b with batteryLevel := 100, state := Charged, lastUpdateAt := T }
  else
    { b with batteryLevel := b.batteryLevel + chargeAmount b T,
             lastUpdateAt := T }

theorem endTime_ge (ts : List ℚ) :
    ∀ t : ℚ, timesValid t ts = true → t ≤ endTime t ts := by
  induction ts with
  | nil => intro t _; exact le_refl t
  | cons now rest ih =>
    intro t hv
    simp only [timesValid, Bool.and_eq_true, decide_eq_true_eq] at hv
    exact le_trans hv.1 (ih now hv.2)

theorem drainAmount_mono (b : Battery) (t E : ℚ)
    (hdr : 0 < b.drainRate) (htE : t ≤ E) :
    drainAmount b t ≤ drainAmount b E := by
  unfold drainAmount durationMinutes
  have hC : 0 ≤ 100 / (b.drainRate / nsPerMinute) :=
    le_of_lt (div_pos (by norm_num) (div_pos hdr nsPerMinute_pos))
  have h : (t - b.lastUpdateAt) / nsPerMinute ≤
      (E - b.lastUpdateAt) / nsPerMinute := by
    apply div_le_div_of_nonneg_right ?_ nsPerMinute_pos.le
    linarith
  exact mul_le_mul_of_nonneg_left h hC

theorem chargeAmount_mono (b : Battery) (t E : ℚ)
    (hcr : 0 < b.chargeRate) (htE : t ≤ E) :
    chargeAmount b t ≤ chargeAmount b E := by
  unfold chargeAmount durationMinutes
  have hC : 0 ≤ 100 / (b.chargeRate / nsPerMinute) :=
    le_of_lt (div_pos (by norm_num) (div_pos hcr nsPerMinute_pos))
  have h : (t - b.lastUpdateAt) / nsPerMinute ≤
      (E - b.lastUpdateAt) / nsPerMinute := by
    apply div_le_div_of_nonneg_right ?_ nsPerMinute_pos.le
    linarith
  exact mul_le_mul_of_nonneg_left h hC

theorem pollTimes_dead (ts : List ℚ) :
    ∀ b : Battery, b.chargedOverride = false → b.isDraining = true →
      b.state = Dead →
      pollTimes b ts = { b with lastUpdateAt := endTime b.lastUpdateAt ts } := by
  induction ts with
  | nil => intro b _ _ _; rfl
  | cons t rest ih =>
    intro b ho hd hs
    show pollTimes (updateStateMachine b t) rest = _
    rw [update_eq_of_dead b t ho hs, if_pos hd]
    rw [ih { b with lastUpdateAt := t } ho hd hs]
    rfl

theorem pollTimes_charged (ts : List ℚ) :
    ∀ b : Battery, b.chargedOverride = false → b.isDraining = false →
      b.state = Charged →
      pollTimes b ts = { b with lastUpdateAt := endTime b.lastUpdateAt ts } := by
  induction ts with
  | nil => intro b _ _ _; rfl
  | cons t rest ih =>
    intro b ho hd hs
    show pollTimes (updateStateMachine b t) rest = _
    rw [update_eq_of_charged b t ho hs]
    rw [if_neg (by simp [hd])]
    rw [ih { b with lastUpdateAt := t } ho hd hs]
    rfl

theorem pollTimes_drain (ts : List ℚ) :
    ∀ b : Battery, 0 < b.drainRate → b.chargedOverride = false →
      b.isDraining = true → b.state = Draining → 0 < b.batteryLevel →
      timesValid b.lastUpdateAt ts = true →
      pollTimes b ts = drainResult b (endTime b.lastUpdateAt ts) := by
  induction ts with
  | nil =>
    intro b hdr ho hd hs hl _
    have h0 : drainAmount b b.lastUpdateAt = 0 := by
      simp [drainAmount, durationMinutes]
    show b = drainResult b b.lastUpdateAt
    unfold drainResult
    rw [h0, if_neg (by linarith)]
    simp
  | cons t rest ih =>
    intro b hdr ho hd hs hl hv
    simp only [timesValid, Bool.and_eq_true, decide_eq_true_eq] at hv
    obtain ⟨hlt, hv'⟩ := hv
    show pollTimes (updateStateMachine b t) rest =
      drainResult b (endTime t rest)
    rw [update_eq_of_draining b t ho hs]
    by_cases hcl : b.batteryLevel - drainAmount b t ≤ 0
    · rw [if_pos hcl]
      have hE : t ≤ endTime t rest := endTime_ge rest t hv'
      rw [pollTimes_dead rest
        { b with batteryLevel := 0, state := Dead, lastUpdateAt := t }
        ho hd rfl]
      unfold drainResult
      rw [if_pos ?hc]
      case hc =>
        have := drainAmount_mono b t (endTime t rest) hdr hE
        linarith
    · rw [if_neg hcl, if_pos hd]
      push_neg at hcl
      have ih1 := ih
        { b with batteryLevel := b.batteryLevel - drainAmount b t,
                 lastUpdateAt := t }
        hdr ho hd hs (by dsimp only; linarith) hv'
      rw [ih1]
      have key :
          b.batteryLevel - drainAmount b t -
            drainAmount
              { b with batteryLevel := b.batteryLevel - drainAmount b t,
                       lastUpdateAt := t }
              (endTime t rest) =
          b.batteryLevel - drainAmount b (endTime t rest) := by
        unfold drainAmount durationMinutes
        dsimp only
        ring
      unfold drainResult
      dsimp only
      rw [key]

theorem pollTimes_charge (ts : List ℚ) :
    ∀ b : Battery, 0 < b.chargeRate → b.chargedOverride = false →
      b.isDraining = false → b.state = Charging → b.batteryLevel < 100 →
      timesValid b.lastUpdateAt ts = true →
      pollTimes b ts = chargeResult b (endTime b.lastUpdateAt ts) := by
  induction ts with
  | nil =>
    intro b hcr ho hd hs hl _
    have h0 : chargeAmount b b.lastUpdateAt = 0 := by
      simp [chargeAmount, durationMinutes]
    show b = chargeResult b b.lastUpdateAt
    unfold chargeResult
    rw [h0, if_neg (by linarith)]
    simp
  | cons t rest ih =>
    intro b hcr ho hd hs hl hv
    simp only [timesValid, Bool.and_eq_true, decide_eq_true_eq] at hv
    obtain ⟨hlt, hv'⟩ := hv
    show pollTimes (updateStateMachine b t) rest =
      chargeResult b (endTime t rest)
    rw [update_eq_of_charging b t ho hs]
    by_cases hcl : b.batteryLevel + chargeAmount b t ≥ 100
    · rw [if_pos hcl]
      have hE : t ≤ endTime t rest := endTime_ge rest t hv'
      rw [pollTimes_charged rest
        { b with batteryLevel := 100, state := Charged, lastUpdateAt := t }
        ho hd rfl]
      unfold chargeResult
      rw [if_pos ?hc]
      case hc =>
        have := chargeAmount_mono b t (endTime t rest) hcr hE
        linarith
    · rw [if_neg hcl]
      rw [if_neg (by simp [hd])]
      push_neg at hcl
      have ih1 := ih
        { b with batteryLevel := b.batteryLevel + chargeAmount b t,
                 lastUpdateAt := t }
        hcr ho hd hs (by dsimp only; linarith) hv'
      rw [ih1]
      have key :
          b.batteryLevel + chargeAmount b t +
            chargeAmount
              { b with batteryLevel := b.batteryLevel + chargeAmount b t,
                       lastUpdateAt := t }
              (endTime t rest) =
          b.batteryLevel + chargeAmount b (endTime t rest) := by
        unfold chargeAmount durationMinutes
        dsimp only
        ring
      unfold chargeResult
      dsimp only
      rw [key]

/-! ## Claim theorems -/

/-- C1: for every configuration, every creation instant, and every
sequence of polls, `SetChargedOverride` and `SetIsDraining` calls with
non-negative elapsed time between the timed operations, the battery
level lies in the closed interval from 0 to 100; the empty sequence
covers the state at construction. -/
theorem c1_level_in_range (config : Config) (t0 : ℚ) (ops : List Op)
    (hv : opsValid t0 ops = true) :
    0 ≤ (run (NewBattery config t0) ops).batteryLevel ∧
    (run (NewBattery config t0) ops).batteryLevel ≤ 100 := by
  have hI : Inv (NewBattery config t0) := by
    refine ⟨?_, ?_, by norm_num [NewBattery], by norm_num [NewBattery]⟩
    · show (0 : ℚ) < if config.DrainRate ≤ 0 then nsPerMinute
        else config.DrainRate
      split
      · exact nsPerMinute_pos
      · next h => exact lt_of_not_le h
    · show (0 : ℚ) < if config.ChargeRate ≤ 0 then nsPerMinute
        else config.ChargeRate
      split
      · exact nsPerMinute_pos
      · next h => exact lt_of_not_le h
  have h := run_inv ops (NewBattery config t0) t0 hI (le_refl t0) hv
  exact ⟨h.2.2.1, h.2.2.2⟩

/-- Witness for C1: a concrete run from a fresh battery — start
draining, poll twice, flip the override on, poll again — keeps the
level between 0 and 100. -/
theorem c1_level_in_range_witness :
    opsValid 0 [Op.setIsDraining true, Op.poll 5, Op.poll 9,
      Op.setChargedOverride true 12, Op.poll 20] = true ∧
    (0 ≤ (run (NewBattery (Config.mk nsPerMinute nsPerMinute 0) 0)
        [Op.setIsDraining true, Op.poll 5, Op.poll 9,
         Op.setChargedOverride true 12, Op.poll 20]).batteryLevel ∧
      (run (NewBattery (Config.mk nsPerMinute nsPerMinute 0) 0)
        [Op.setIsDraining true, Op.poll 5, Op.poll 9,
         Op.setChargedOverride true 12, Op.poll 20]).batteryLevel ≤ 100) := by
  have hv : opsValid 0 [Op.setIsDraining true, Op.poll 5, Op.poll 9,
      Op.setChargedOverride true 12, Op.poll 20] = true := by
    simp [opsValid]
    norm_num
  exact ⟨hv, c1_level_in_range (Config.mk nsPerMinute nsPerMinute 0) 0 _ hv⟩

/-- C2: for every battery in which `chargedOverride` is true, a single
poll yields state `Charged` and level 100, regardless of the prior
state, prior level, and the `isDraining` flag. -/
theorem c2_override_forces_charged (b : Battery) (now : ℚ)
    (h : b.chargedOverride = true) :
    (updateStateMachine b now).state = Charged ∧
    (updateStateMachine b now).batteryLevel = 100 := by
  unfold updateStateMachine
  rw [h]
  simp only [if_true]
  exact ⟨setState_state_eq _ _ _, setState_batteryLevel _ _ _⟩

/-- Witness for C2: a battery in state `Draining` at level 10 with
`isDraining` still true, but with the override set, polls to `Charged`
at level 100. -/
theorem c2_override_forces_charged_witness :
    (updateStateMachine
      { state := Draining, batteryLevel := 10, chargedOverride := true,
        isDraining := true, drainRate := nsPerMinute,
        chargeRate := nsPerMinute, disconnectingDuration := 0,
        lastUpdateAt := 0, disconnectingStartTime := 0,
        stopTickerClosed := false, running := true } 5).state = Charged ∧
    (updateStateMachine
      { state := Draining, batteryLevel := 10, chargedOverride := true,
        isDraining := true, drainRate := nsPerMinute,
        chargeRate := nsPerMinute, disconnectingDuration := 0,
        lastUpdateAt := 0, disconnectingStartTime := 0,
        stopTickerClosed := false, running := true } 5).batteryLevel = 100 :=
  c2_override_forces_charged _ 5 rfl

/-- C4: `NewBattery` returns a battery at state `Charged` and level 100,
with `drainRate` replaced by one minute when the configured value is
non-positive, `chargeRate` replaced by one minute when non-positive,
`disconnectingDuration` replaced by 0 when negative, and positive
configured values kept unchanged.  The function is total, so no error is
signalled. -/
theorem c4_newBattery_spec (config : Config) (now : ℚ) :
    (NewBattery config now).state = Charged ∧
    (NewBattery config now).batteryLevel = 100 ∧
    (NewBattery config now).drainRate =
      (if config.DrainRate ≤ 0 then nsPerMinute else config.DrainRate) ∧
    (NewBattery config now).chargeRate =
      (if config.ChargeRate ≤ 0 then nsPerMinute else config.ChargeRate) ∧
    (NewBattery config now).disconnectingDuration =
      (if config.DisconnectingDuration < 0 then 0
       else config.DisconnectingDuration) := by
  refine ⟨rfl, rfl, rfl, rfl, rfl⟩

/-- C10: `SetChargedOverride false` changes only the `chargedOverride`
field; state, level, `isDraining`, the configured rates and durations,
`lastUpdateAt`, `disconnectingStartTime` and the lifecycle flags are all
unchanged by the call itself. -/
theorem c10_setChargedOverride_false_frame (b : Battery) (now : ℚ) :
    (SetChargedOverride b false now).chargedOverride = false ∧
    (SetChargedOverride b false now).state = b.state ∧
    (SetChargedOverride b false now).batteryLevel = b.batteryLevel ∧
    (SetChargedOverride b false now).isDraining = b.isDraining ∧
    (SetChargedOverride b false now).drainRate = b.drainRate ∧
    (SetChargedOverride b false now).chargeRate = b.chargeRate ∧
    (SetChargedOverride b false now).disconnectingDuration =
      b.disconnectingDuration ∧
    (SetChargedOverride b false now).lastUpdateAt = b.lastUpdateAt ∧
    (SetChargedOverride b false now).disconnectingStartTime =
      b.disconnectingStartTime ∧
    (SetChargedOverride b false now).stopTickerClosed = b.stopTickerClosed ∧
    (SetChargedOverride b false now).running = b.running := by
  refine ⟨rfl, rfl, rfl, rfl, rfl, rfl, rfl, rfl, rfl, rfl, rfl⟩

theorem drain_mono_aux (ts : List ℚ) :
    ∀ b : Battery, 0 < b.drainRate → b.chargedOverride = false →
      b.isDraining = true → 0 ≤ b.batteryLevel →
      (b.state = Draining ∨ (b.state = Dead ∧ b.batteryLevel = 0)) →
      timesValid b.lastUpdateAt ts = true →
      (pollTimes b ts).batteryLevel ≤ b.batteryLevel ∧
      ((pollTimes b ts).state = Draining ∨
        ((pollTimes b ts).state = Dead ∧
          (pollTimes b ts).batteryLevel = 0)) := by
  induction ts with
  | nil => intro b _ _ _ _ hst _; exact ⟨le_refl _, hst⟩
  | cons t rest ih =>
    intro b hdr ho hd h0 hst hv
    simp only [timesValid, Bool.and_eq_true, decide_eq_true_eq] at hv
    obtain ⟨hlt, hv'⟩ := hv
    simp only [pollTimes]
    cases hst with
    | inl hs =>
      rw [update_eq_of_draining b t ho hs]
      have hda := drainAmount_nonneg b t hdr hlt
      by_cases hcl : b.batteryLevel - drainAmount b t ≤ 0
      · rw [if_pos hcl]
        have hrec := ih
          { b with batteryLevel := 0, state := Dead, lastUpdateAt := t }
          hdr ho hd (by norm_num) (Or.inr ⟨rfl, rfl⟩) hv'
        refine ⟨?_, hrec.2⟩
        have h1 := hrec.1
        dsimp only at h1
        linarith
      · rw [if_neg hcl, if_pos hd]
        push_neg at hcl
        have hrec := ih
          { b with batteryLevel := b.batteryLevel - drainAmount b t,
                   lastUpdateAt := t }
          hdr ho hd (by dsimp only; linarith) (Or.inl hs) hv'
        refine ⟨?_, hrec.2⟩
        have h1 := hrec.1
        dsimp only at h1
        linarith
    | inr hdead =>
      obtain ⟨hs, hl0⟩ := hdead
      rw [update_eq_of_dead b t ho hs, if_pos hd]
      have hrec := ih { b with lastUpdateAt := t }
        hdr ho hd h0 (Or.inr ⟨hs, hl0⟩) hv'
      exact ⟨hrec.1, hrec.2⟩

/-- A sample battery sitting in `Draining` at level 50 with a one-minute
drain rate, used by concrete witnesses. -/
def sampleDraining : Battery :=
  { state := Draining, batteryLevel := 50, chargedOverride := false,
    isDraining := true, drainRate := nsPerMinute, chargeRate := nsPerMinute,
    disconnectingDuration := 0, lastUpdateAt := 0,
    disconnectingStartTime := 0, stopTickerClosed := false, running := true }

/-- A sample battery parked in `Charged` under the override, used by the
C3 counterexample. -/
def sampleOverridden : Battery :=
  { state := Charged, batteryLevel := 100, chargedOverride := true,
    isDraining := true, drainRate := nsPerMinute, chargeRate := nsPerMinute,
    disconnectingDuration := 0, lastUpdateAt := 0,
    disconnectingStartTime := 0, stopTickerClosed := false, running := true }

/-- A sample battery dwelling in `Disconnecting` with a 30-second dwell,
entered at instant 0, used by the C7 witness. -/
def sampleDisconnecting : Battery :=
  { state := Disconnecting, batteryLevel := 100, chargedOverride := false,
    isDraining := true, drainRate := nsPerMinute, chargeRate := nsPerMinute,
    disconnectingDuration := 30 * nsPerSecond, lastUpdateAt := 0,
    disconnectingStartTime := 0, stopTickerClosed := false, running := true }

/-- C3 counterexample: the claim says every poll records
`lastUpdateAt = now` also when `chargedOverride` is true and the state
is already `Charged`; but for such a battery with `lastUpdateAt = 0`, a
poll at instant 5 leaves `lastUpdateAt` at 0, because the override
branch returns before the final `lastUpdateAt = now` write and
`setState` does not touch timing when the state does not change. -/
theorem c3_counterexample :
    (updateStateMachine sampleOverridden 5).lastUpdateAt ≠ 5 := by
  rw [update_eq_of_override sampleOverridden 5 rfl]
  norm_num [sampleOverridden]

/-- C3 amended: a poll with `chargedOverride` false always records
`lastUpdateAt = now`; a poll with `chargedOverride` true records
`lastUpdateAt = now` exactly when the prior state is not `Charged`, and
leaves `lastUpdateAt` unchanged when the state is already `Charged`. -/
theorem c3_lastUpdateAt_recording (b : Battery) (now : ℚ) :
    (b.chargedOverride = false →
      (updateStateMachine b now).lastUpdateAt = now) ∧
    (b.chargedOverride = true → b.state ≠ Charged →
      (updateStateMachine b now).lastUpdateAt = now) ∧
    (b.chargedOverride = true → b.state = Charged →
      (updateStateMachine b now).lastUpdateAt = b.lastUpdateAt) := by
  refine ⟨fun ho => ?_, fun ho hs => ?_, fun ho hs => ?_⟩
  · cases hs : b.state
    · rw [update_eq_of_charged b now ho hs]
      split <;> rfl
    · rw [update_eq_of_disconnecting b now ho hs]
      split <;> rfl
    · rw [update_eq_of_draining b now ho hs]
      split
      · rfl
      · split <;> rfl
    · rw [update_eq_of_dead b now ho hs]
      split <;> rfl
    · rw [update_eq_of_charging b now ho hs]
      split
      · rfl
      · split <;> rfl
  · rw [update_eq_of_override b now ho]
    simp [hs]
  · rw [update_eq_of_override b now ho]
    simp [hs]

/-- Witness for C3 amended: a poll of the sample draining battery
(override off) at instant 5 records `lastUpdateAt = 5`, and a poll of
the overridden, already-Charged sample leaves `lastUpdateAt` at 0. -/
theorem c3_lastUpdateAt_recording_witness :
    (updateStateMachine sampleDraining 5).lastUpdateAt = 5 ∧
    (updateStateMachine sampleOverridden 5).lastUpdateAt =
      sampleOverridden.lastUpdateAt :=
  ⟨(c3_lastUpdateAt_recording sampleDraining 5).1 rfl,
   (c3_lastUpdateAt_recording sampleOverridden 5).2.2 rfl rfl⟩

/-- C5: a poll taken in state `Draining` with `chargedOverride` false
decreases the level by `(100 / drainRate in minutes) * elapsedMinutes`;
if the result is at most 0 the level is clamped to 0 and the state
becomes `Dead` regardless of `isDraining`; otherwise the decreased
level is stored and the state becomes `Charging` when `isDraining` is
false and stays `Draining` when it is true. -/
theorem c5_draining_poll (b : Battery) (now : ℚ)
    (hs : b.state = Draining) (ho : b.chargedOverride = false) :
    (b.batteryLevel - drainAmount b now ≤ 0 →
      (updateStateMachine b now).batteryLevel = 0 ∧
      (updateStateMachine b now).state = Dead) ∧
    (¬ b.batteryLevel - drainAmount b now ≤ 0 →
      (updateStateMachine b now).batteryLevel =
        b.batteryLevel - drainAmount b now ∧
      (b.isDraining = false → (updateStateMachine b now).state = Charging) ∧
      (b.isDraining = true → (updateStateMachine b now).state = Draining)) := by
  rw [update_eq_of_draining b now ho hs]
  constructor
  · intro hl
    simp [hl]
  · intro hl
    refine ⟨?_, fun hd => ?_, fun hd => ?_⟩
    · simp [hl]
      split <;> rfl
    · simp [hl, hd]
    · simp [hl, hd, hs]

/-- Witness for C5: 30 seconds of draining at a one-minute drain rate
from level 50 exhausts the battery: the clamp condition holds and the
poll yields level 0 in state `Dead`. -/
theorem c5_draining_poll_witness :
    sampleDraining.batteryLevel -
      drainAmount sampleDraining (30 * nsPerSecond) ≤ 0 ∧
    (updateStateMachine sampleDraining (30 * nsPerSecond)).batteryLevel = 0 ∧
    (updateStateMachine sampleDraining (30 * nsPerSecond)).state = Dead := by
  have hl : sampleDraining.batteryLevel -
      drainAmount sampleDraining (30 * nsPerSecond) ≤ 0 := by
    norm_num [sampleDraining, drainAmount, durationMinutes, nsPerMinute,
      nsPerSecond]
  exact ⟨hl, (c5_draining_poll sampleDraining (30 * nsPerSecond) rfl rfl).1 hl⟩

/-- C7: `GetInfo` reports the remaining disconnect dwell only in state
`Disconnecting`, as the configured dwell minus the time elapsed since
entering that state, clamped to be non-negative; in every other state
the field keeps its zero value. -/
theorem c7_getInfo_dwell (b : Battery) (now : ℚ) :
    (b.state = Disconnecting →
      (GetInfo b now).DisconnectingDurationRemaining =
        max (b.disconnectingDuration - (now - b.disconnectingStartTime)) 0 ∧
      0 ≤ (GetInfo b now).DisconnectingDurationRemaining) ∧
    (b.state ≠ Disconnecting →
      (GetInfo b now).DisconnectingDurationRemaining = 0) := by
  constructor
  · intro hs
    unfold GetInfo
    simp [hs]
  · intro hs
    unfold GetInfo
    simp [hs]

/-- Witness for C7: with a 30-second dwell entered at instant 0 and a
snapshot taken 12 seconds later, the reported remaining dwell is 18
seconds; the same battery moved to `Draining` reports 0. -/
theorem c7_getInfo_dwell_witness :
    (GetInfo sampleDisconnecting (12 * nsPerSecond)).DisconnectingDurationRemaining = 18 * nsPerSecond ∧
    (GetInfo sampleDraining (12 * nsPerSecond)).DisconnectingDurationRemaining = 0 := by
  constructor
  · have h := (c7_getInfo_dwell sampleDisconnecting (12 * nsPerSecond)).1 rfl
    rw [h.1]
    norm_num [sampleDisconnecting, nsPerSecond]
  · exact (c7_getInfo_dwell sampleDraining (12 * nsPerSecond)).2 (by simp [sampleDraining])

/-- C8: if one call of `Stop` succeeds and returns battery `b2`, a
second call of `Stop` on `b2` is a no-op: it succeeds (no fault, no
double close of the channel) and returns `b2` itself unchanged. -/
theorem c8_stop_idempotent (b b2 : Battery) (h : Stop b = some b2) :
    Stop b2 = some b2 := by
  unfold Stop at h ⊢
  by_cases hr : b.running
  · simp only [hr, if_true] at h
    by_cases hc : b.stopTickerClosed
    · simp [hc] at h
    · simp only [hc, if_false] at h
      cases h
      simp
  · simp only [hr, if_false] at h
    cases h
    simp [hr]

/-- Witness for C8: stopping a freshly created battery succeeds, and a
second stop returns the same battery unchanged. -/
theorem c8_stop_idempotent_witness :
    Stop { state := Charged, batteryLevel := 100, chargedOverride := false,
           isDraining := false, drainRate := nsPerMinute,
           chargeRate := nsPerMinute, disconnectingDuration := 0,
           lastUpdateAt := 0, disconnectingStartTime := 0,
           stopTickerClosed := false, running := true } =
      some { state := Charged, batteryLevel := 100, chargedOverride := false,
             isDraining := false, drainRate := nsPerMinute,
             chargeRate := nsPerMinute, disconnectingDuration := 0,
             lastUpdateAt := 0, disconnectingStartTime := 0,
             stopTickerClosed := true, running := false } ∧
    Stop { state := Charged, batteryLevel := 100, chargedOverride := false,
           isDraining := false, drainRate := nsPerMinute,
           chargeRate := nsPerMinute, disconnectingDuration := 0,
           lastUpdateAt := 0, disconnectingStartTime := 0,
           stopTickerClosed := true, running := false } =
      some { state := Charged, batteryLevel := 100, chargedOverride := false,
             isDraining := false, drainRate := nsPerMinute,
             chargeRate := nsPerMinute, disconnectingDuration := 0,
             lastUpdateAt := 0, disconnectingStartTime := 0,
             stopTickerClosed := true, running := false } :=
  ⟨rfl,
   c8_stop_idempotent
     { state := Charged, batteryLevel := 100, chargedOverride := false,
       isDraining := false, drainRate := nsPerMinute,
       chargeRate := nsPerMinute, disconnectingDuration := 0,
       lastUpdateAt := 0, disconnectingStartTime := 0,
       stopTickerClosed := false, running := true }
     { state := Charged, batteryLevel := 100, chargedOverride := false,
       isDraining := false, drainRate := nsPerMinute,
       chargeRate := nsPerMinute, disconnectingDuration := 0,
       lastUpdateAt := 0, disconnectingStartTime := 0,
       stopTickerClosed := true, running := false }
     rfl⟩

/-- C6: under exact rational arithmetic, a fixed total elapsed time
spent draining (state `Draining`, `isDraining` true throughout) or
charging (state `Charging`, `isDraining` false throughout) yields the
same final level — and the same final state — whether it is split into
many small polls or few large polls: any two valid poll schedules with
the same end instant agree. -/
theorem c6_tick_independence (b : Battery) (ts1 ts2 : List ℚ)
    (ho : b.chargedOverride = false)
    (hv1 : timesValid b.lastUpdateAt ts1 = true)
    (hv2 : timesValid b.lastUpdateAt ts2 = true)
    (hend : endTime b.lastUpdateAt ts1 = endTime b.lastUpdateAt ts2) :
    (b.state = Draining → b.isDraining = true → 0 < b.drainRate →
        0 < b.batteryLevel →
      (pollTimes b ts1).batteryLevel = (pollTimes b ts2).batteryLevel ∧
      (pollTimes b ts1).state = (pollTimes b ts2).state) ∧
    (b.state = Charging → b.isDraining = false → 0 < b.chargeRate →
        b.batteryLevel < 100 →
      (pollTimes b ts1).batteryLevel = (pollTimes b ts2).batteryLevel ∧
      (pollTimes b ts1).state = (pollTimes b ts2).state) := by
  constructor
  · intro hs hd hdr hl
    rw [pollTimes_drain ts1 b hdr ho hd hs hl hv1,
        pollTimes_drain ts2 b hdr ho hd hs hl hv2, hend]
    exact ⟨rfl, rfl⟩
  · intro hs hd hcr hl
    rw [pollTimes_charge ts1 b hcr ho hd hs hl hv1,
        pollTimes_charge ts2 b hcr ho hd hs hl hv2, hend]
    exact ⟨rfl, rfl⟩

/-- Witness for C6: draining the sample battery over the schedule of
three polls at instants 5, 9 and 20 gives the same final level as one
big poll at instant 20. -/
theorem c6_tick_independence_witness :
    timesValid sampleDraining.lastUpdateAt [5, 9, 20] = true ∧
    timesValid sampleDraining.lastUpdateAt [20] = true ∧
    (pollTimes sampleDraining [5, 9, 20]).batteryLevel =
      (pollTimes sampleDraining [20]).batteryLevel := by
  have hv1 : timesValid sampleDraining.lastUpdateAt [5, 9, 20] = true := by
    simp [timesValid, sampleDraining]
    norm_num
  have hv2 : timesValid sampleDraining.lastUpdateAt [20] = true := by
    simp [timesValid, sampleDraining]
  refine ⟨hv1, hv2, ?_⟩
  exact ((c6_tick_independence sampleDraining [5, 9, 20] [20] rfl hv1 hv2
    rfl).1 rfl rfl (by norm_num [sampleDraining, nsPerMinute])
    (by norm_num [sampleDraining])).1

/-- C9: while in `Draining` with `isDraining` held true and
`chargedOverride` held false throughout, the level is non-increasing
across every valid sequence of successive polls, and the battery is
still `Draining` or has reached `Dead` at level 0. -/
theorem c9_drain_monotone (b : Battery) (ts : List ℚ)
    (hs : b.state = Draining) (ho : b.chargedOverride = false)
    (hd : b.isDraining = true) (hdr : 0 < b.drainRate)
    (h0 : 0 ≤ b.batteryLevel)
    (hv : timesValid b.lastUpdateAt ts = true) :
    (pollTimes b ts).batteryLevel ≤ b.batteryLevel ∧
    ((pollTimes b ts).state = Draining ∨
      ((pollTimes b ts).state = Dead ∧
        (pollTimes b ts).batteryLevel = 0)) :=
  drain_mono_aux ts b hdr ho hd h0 (Or.inl hs) hv

/-- Witness for C9: two polls of the sample draining battery at
instants 5 and 9 do not increase the level, and leave the battery
draining or dead at level 0. -/
theorem c9_drain_monotone_witness :
    (pollTimes sampleDraining [5, 9]).batteryLevel ≤
      sampleDraining.batteryLevel ∧
    ((pollTimes sampleDraining [5, 9]).state = Draining ∨
      ((pollTimes sampleDraining [5, 9]).state = Dead ∧
        (pollTimes sampleDraining [5, 9]).batteryLevel = 0)) :=
  c9_drain_monotone sampleDraining [5, 9] rfl rfl rfl
    (by norm_num [sampleDraining, nsPerMinute])
    (by norm_num [sampleDraining])
    (by simp [timesValid, sampleDraining]; norm_num)

end TinySpaceWalk
